import Mathlib

set_option maxHeartbeats 1000000
set_option maxRecDepth 4000

/-!
Verification development for the structured block-mesh generation core
(`mesh/BlockMesh/BlockData.cpp`): the global node-index oracle
(`NodeIndices3D` / `NodeIndices2D`), per-block node accounting
(`BlockArrays::Implementation::create_blocks`, `NodeIndices3D::NodeIndices3D`),
ghost-node allocation (`to_local`), the edge-grading routine
(`detail::create_mapped_coords`) and the block partitioner
(`partition_blocks_2d` / `partition_blocks_3d`).

Machine integers (`Uint`) are modelled as `Nat`; the quantities handled here
(node counts, indices) stay far below 2^32 so wrap-around is not modelled.
Floating-point `Real` values are modelled as `ℝ` with exact arithmetic.
-/

namespace BlockMesh

/-! ### 3D block topology

Abstract form of the data the node-index oracle reads: per-block segment
counts (`block_subdivisions`) and the face-connectivity answers used by the
code.  `adjX b = some a` means `m_face_connectivity.adjacent_element(b, KSI_POS)`
returns volume block `a`; `adjX b = none` means that face carries a boundary
patch element (dimensionality `DIM_2D`), i.e. the block is bounded on that
side.  The negative-direction fields record the volume adjacency on the
negative sides; the oracle reads only the positive-direction fields. -/
structure Topo3 where
  nb : ℕ
  sx : ℕ → ℕ
  sy : ℕ → ℕ
  sz : ℕ → ℕ
  adjX : ℕ → Option ℕ
  adjY : ℕ → Option ℕ
  adjZ : ℕ → Option ℕ
  adjXneg : ℕ → Option ℕ
  adjYneg : ℕ → Option ℕ
  adjZneg : ℕ → Option ℕ

/-- Translation of `bounded[block][XX]`: the positive-X face carries a patch. -/
def boundedX3 (T : Topo3) (b : ℕ) : Bool := (T.adjX b).isNone

/-- Translation of `bounded[block][YY]`. -/
def boundedY3 (T : Topo3) (b : ℕ) : Bool := (T.adjY b).isNone

/-- Translation of `bounded[block][ZZ]`. -/
def boundedZ3 (T : Topo3) (b : ℕ) : Bool := (T.adjZ b).isNone

/-- Per-block owned node count, exactly the `nb_nodes` sum computed in the
`NodeIndices3D` constructor (BlockData.cpp:1177). -/
def nbNodes3 (T : Topo3) (b : ℕ) : ℕ :=
  T.sx b * T.sy b * T.sz b +
  (boundedX3 T b).toNat * (T.sy b * T.sz b) +
  (boundedY3 T b).toNat * (T.sx b * T.sz b) +
  (boundedZ3 T b).toNat * (T.sx b * T.sy b) +
  ((boundedX3 T b && boundedY3 T b)).toNat * T.sz b +
  ((boundedX3 T b && boundedZ3 T b)).toNat * T.sy b +
  ((boundedY3 T b && boundedZ3 T b)).toNat * T.sx b +
  ((boundedX3 T b && boundedY3 T b && boundedZ3 T b)).toNat

/-- Per-axis node count of `create_blocks` (BlockData.cpp:289):
`block.nb_points[i] = subdiv_row[i] + (block.bounded[i] ? 1 : 0)`, X axis. -/
def nbPointsX3 (T : Topo3) (b : ℕ) : ℕ := T.sx b + (boundedX3 T b).toNat

/-- Per-axis node count, Y axis. -/
def nbPointsY3 (T : Topo3) (b : ℕ) : ℕ := T.sy b + (boundedY3 T b).toNat

/-- Per-axis node count, Z axis. -/
def nbPointsZ3 (T : Topo3) (b : ℕ) : ℕ := T.sz b + (boundedZ3 T b).toNat

/-- Per-block element count of `create_blocks` (BlockData.cpp:291). -/
def nbElems3 (T : Topo3) (b : ℕ) : ℕ := T.sx b * T.sy b * T.sz b

/-- Total element count over all blocks. -/
def totalElems3 (T : Topo3) : ℕ := ∑ b ∈ Finset.range T.nb, nbElems3 T b

/-- Translation of `block_first_nodes`: prefix sums of the per-block owned
node counts (`block_first_nodes.push_back(block_first_nodes.back() + nb_nodes)`). -/
def firstNodes3 (T : Topo3) : ℕ → ℕ
  | 0 => 0
  | b + 1 => firstNodes3 T b + nbNodes3 T b

/-- Translation of `nodes_dist` (BlockData.cpp:1190): per-process node counts
accumulated over the block distribution `d`. -/
def nodesDist3 (T : Topo3) (d : ℕ → ℕ) : ℕ → ℕ
  | 0 => 0
  | p + 1 => nodesDist3 T d p + (firstNodes3 T (d (p + 1)) - firstNodes3 T (d p))

/-- Translation of `NodeIndices3D::global_idx` (BlockData.cpp:1228-1453).
The recursion depth of the source is at most 3 (each hop zeroes one
coordinate); `fuel` bounds it, and `none` stands for the unreachable
`ShouldNotBeHere` / out-of-fuel cases. -/
def globalIdx3 (T : Topo3) : ℕ → ℕ → ℕ → ℕ → ℕ → Option ℕ
  | 0, _, _, _, _ => none
  | fuel + 1, b, i, j, k =>
    let xs := T.sx b
    let ys := T.sy b
    let zs := T.sz b
    let internal := xs * ys * zs
    if i ≠ xs ∧ j ≠ ys ∧ k ≠ zs then
      some (firstNodes3 T b + i + j * xs + k * xs * ys)
    else if i = xs ∧ j ≠ ys ∧ k ≠ zs then
      match T.adjX b with
      | some a => some (firstNodes3 T a + j * T.sx a + k * (T.sx a * T.sy a))
      | none => some (firstNodes3 T b + internal + j + k * ys)
    else if i ≠ xs ∧ j = ys ∧ k ≠ zs then
      match T.adjY b with
      | some a => some (firstNodes3 T a + i + k * (T.sx a * T.sy a))
      | none =>
        some (firstNodes3 T b + internal + (boundedX3 T b).toNat * (ys * zs) + i + k * xs)
    else if i ≠ xs ∧ j ≠ ys ∧ k = zs then
      match T.adjZ b with
      | some a => some (firstNodes3 T a + i + j * T.sx a)
      | none =>
        some (firstNodes3 T b + internal + (boundedX3 T b).toNat * (ys * zs) +
          (boundedY3 T b).toNat * (xs * zs) + i + j * xs)
    else if i = xs ∧ j = ys ∧ k ≠ zs then
      if ¬ (boundedX3 T b && boundedY3 T b) then
        if ¬ boundedX3 T b then
          match T.adjX b with
          | some a => globalIdx3 T fuel a 0 j k
          | none => none
        else
          match T.adjY b with
          | some a => globalIdx3 T fuel a i 0 k
          | none => none
      else
        some (firstNodes3 T b + internal + (boundedX3 T b).toNat * (ys * zs) +
          (boundedY3 T b).toNat * (xs * zs) + (boundedZ3 T b).toNat * (xs * ys) + k)
    else if i = xs ∧ j ≠ ys ∧ k = zs then
      if ¬ (boundedX3 T b && boundedZ3 T b) then
        if ¬ boundedX3 T b then
          match T.adjX b with
          | some a => globalIdx3 T fuel a 0 j k
          | none => none
        else
          match T.adjZ b with
          | some a => globalIdx3 T fuel a i j 0
          | none => none
      else
        some (firstNodes3 T b + internal + (boundedX3 T b).toNat * (ys * zs) +
          (boundedY3 T b).toNat * (xs * zs) + (boundedZ3 T b).toNat * (xs * ys) +
          ((boundedX3 T b && boundedY3 T b)).toNat * zs + j)
    else if i ≠ xs ∧ j = ys ∧ k = zs then
      if ¬ (boundedY3 T b && boundedZ3 T b) then
        if ¬ boundedY3 T b then
          match T.adjY b with
          | some a => globalIdx3 T fuel a i 0 k
          | none => none
        else
          match T.adjZ b with
          | some a => globalIdx3 T fuel a i j 0
          | none => none
      else
        some (firstNodes3 T b + internal + (boundedX3 T b).toNat * (ys * zs) +
          (boundedY3 T b).toNat * (xs * zs) + (boundedZ3 T b).toNat * (xs * ys) +
          ((boundedX3 T b && boundedY3 T b)).toNat * zs +
          ((boundedX3 T b && boundedZ3 T b)).toNat * ys + i)
    else
      if ¬ (boundedX3 T b && boundedY3 T b && boundedZ3 T b) then
        if ¬ boundedX3 T b then
          match T.adjX b with
          | some a => globalIdx3 T fuel a 0 j k
          | none => none
        else if ¬ boundedY3 T b then
          match T.adjY b with
          | some a => globalIdx3 T fuel a i 0 k
          | none => none
        else
          match T.adjZ b with
          | some a => globalIdx3 T fuel a i j 0
          | none => none
      else
        some (firstNodes3 T b + internal + (boundedX3 T b).toNat * (ys * zs) +
          (boundedY3 T b).toNat * (xs * zs) + (boundedZ3 T b).toNat * (xs * ys) +
          ((boundedX3 T b && boundedY3 T b)).toNat * zs +
          ((boundedX3 T b && boundedZ3 T b)).toNat * ys +
          ((boundedY3 T b && boundedZ3 T b)).toNat * xs)

/-! ### 2D block topology and oracle (`NodeIndices2D`) -/

/-- Abstract 2D block topology: segment counts plus positive-direction face
connectivity, as read by `NodeIndices2D`. -/
structure Topo2 where
  nb : ℕ
  sx : ℕ → ℕ
  sy : ℕ → ℕ
  adjX : ℕ → Option ℕ
  adjY : ℕ → Option ℕ

/-- Translation of 2D `bounded[block][XX]`. -/
def boundedX2 (T : Topo2) (b : ℕ) : Bool := (T.adjX b).isNone

/-- Translation of 2D `bounded[block][YY]`. -/
def boundedY2 (T : Topo2) (b : ℕ) : Bool := (T.adjY b).isNone

/-- Per-block owned node count of the `NodeIndices2D` constructor
(BlockData.cpp:1522). -/
def nbNodes2 (T : Topo2) (b : ℕ) : ℕ :=
  T.sx b * T.sy b +
  (boundedX2 T b).toNat * T.sy b +
  (boundedY2 T b).toNat * T.sx b +
  ((boundedX2 T b && boundedY2 T b)).toNat

/-- 2D `block_first_nodes`. -/
def firstNodes2 (T : Topo2) : ℕ → ℕ
  | 0 => 0
  | b + 1 => firstNodes2 T b + nbNodes2 T b

/-- Translation of `NodeIndices2D::global_idx` (BlockData.cpp:1567-1659). -/
def globalIdx2 (T : Topo2) : ℕ → ℕ → ℕ → ℕ → Option ℕ
  | 0, _, _, _ => none
  | fuel + 1, b, i, j =>
    let xs := T.sx b
    let ys := T.sy b
    let internal := xs * ys
    if i ≠ xs ∧ j ≠ ys then
      some (firstNodes2 T b + i + j * xs)
    else if i = xs ∧ j ≠ ys then
      match T.adjX b with
      | some a => some (firstNodes2 T a + j * T.sx a)
      | none => some (firstNodes2 T b + internal + j)
    else if i ≠ xs ∧ j = ys then
      match T.adjY b with
      | some a => some (firstNodes2 T a + i)
      | none => some (firstNodes2 T b + internal + (boundedX2 T b).toNat * ys + i)
    else
      if ¬ (boundedX2 T b && boundedY2 T b) then
        if ¬ boundedX2 T b then
          match T.adjX b with
          | some a => globalIdx2 T fuel a 0 j
          | none => none
        else
          match T.adjY b with
          | some a => globalIdx2 T fuel a i 0
          | none => none
      else
        some (firstNodes2 T b + internal + (boundedX2 T b).toNat * ys +
          (boundedY2 T b).toNat * xs)

/-! ### Concrete topologies used as test inputs -/

/-- L-shaped arrangement of three unit blocks (one segment per axis):
block 0 at the origin, block 1 its positive-X neighbor, block 2 its
positive-Y neighbor; the diagonal position is empty.  Realizable as three
unit cubes sharing corner points. -/
def topoL : Topo3 where
  nb := 3
  sx := fun _ => 1
  sy := fun _ => 1
  sz := fun _ => 1
  adjX := fun b => if b = 0 then some 1 else none
  adjY := fun b => if b = 0 then some 2 else none
  adjZ := fun _ => none
  adjXneg := fun b => if b = 1 then some 0 else none
  adjYneg := fun b => if b = 2 then some 0 else none
  adjZneg := fun _ => none

/-- Two-block channel: block 0 and its positive-X neighbor block 1, one
segment per axis. -/
def topoChan : Topo3 where
  nb := 2
  sx := fun _ => 1
  sy := fun _ => 1
  sz := fun _ => 1
  adjX := fun b => if b = 0 then some 1 else none
  adjY := fun _ => none
  adjZ := fun _ => none
  adjXneg := fun b => if b = 1 then some 0 else none
  adjYneg := fun _ => none
  adjZneg := fun _ => none

/-- Single block with `segments = (2,2,2)` and every face on the boundary
(the unit-box scenario of the spec). -/
def topoBox : Topo3 where
  nb := 1
  sx := fun _ => 2
  sy := fun _ => 2
  sz := fun _ => 2
  adjX := fun _ => none
  adjY := fun _ => none
  adjZ := fun _ => none
  adjXneg := fun _ => none
  adjYneg := fun _ => none
  adjZneg := fun _ => none

/-- Serial block distribution for a one-process run over `n` blocks:
`[0, n]` as a function. -/
def serialDist (n : ℕ) : ℕ → ℕ := fun p => if p = 0 then 0 else n

/-- Two-block 2D channel for the 2D oracle witness. -/
def topo2Chan : Topo2 where
  nb := 2
  sx := fun _ => 1
  sy := fun _ => 1
  adjX := fun b => if b = 0 then some 1 else none
  adjY := fun _ => none

/-- Total `nb_elems` of the `Patch` entries that `create_blocks`
(BlockData.cpp:297-311) appends to `patch_map` for user patch `p`: for each
block, each of the six faces whose adjacent element is a patch element of
`p` contributes a `Patch` (BlockData.cpp:185) counting the product of the
segments of the non-fixed axes.  `patchOf b f` names the user patch whose
element is adjacent to face `f` of block `b`, faces numbered in the
axis/direction loop order 0 = XNEG, 1 = XPOS, 2 = YNEG, 3 = YPOS, 4 = ZNEG,
5 = ZPOS; it is `none` on interior faces — and on boundary faces not covered
by any user patch, because `create_block_mesh` initializes the connectivity
(BlockData.cpp:741) before the default shell region exists
(BlockData.cpp:748), so such faces have no adjacent element at all and the
unguarded `adjacent_element` calls of `create_blocks` are outside the code's
assumptions. -/
def patchMapElems3 (T : Topo3) (patchOf : ℕ → ℕ → Option ℕ) (p : ℕ) : ℕ :=
  ∑ b ∈ Finset.range T.nb,
    ((if patchOf b 0 = some p then T.sy b * T.sz b else 0) +
     (if patchOf b 1 = some p then T.sy b * T.sz b else 0) +
     (if patchOf b 2 = some p then T.sx b * T.sz b else 0) +
     (if patchOf b 3 = some p then T.sx b * T.sz b else 0) +
     (if patchOf b 4 = some p then T.sx b * T.sy b else 0) +
     (if patchOf b 5 = some p then T.sx b * T.sy b else 0))

/-- Surface elements emitted into the generated mesh by
`BlockArrays::create_mesh` (BlockData.cpp:881-889): one `add_patch` call per
Table in the user-created patches group, each emitting the total `nb_elems`
of `patch_map` for that patch name (BlockData.cpp:515-521).  The
`default_patch` region belongs to the inner block mesh only and is never in
this group, so no `add_patch` call is ever made for it. -/
def emittedSurfaceElems (T : Topo3) (patchOf : ℕ → ℕ → Option ℕ)
    (userPatches : List ℕ) : ℕ :=
  (userPatches.map fun p => patchMapElems3 T patchOf p).sum

/-- Per-face user-patch assignment for the unit box with all six faces
covered by a single user patch (index 0). -/
def boxPatchOf : ℕ → ℕ → Option ℕ := fun _ _ => some 0

/-- Per-face assignment when no patches are defined: no face has an adjacent
patch element. -/
def noPatchOf : ℕ → ℕ → Option ℕ := fun _ _ => none

/-! ### Ghost-node allocation (`to_local` / `operator()`)

`std::map<Uint, Uint>` is modelled as an association list; `insert` places the
new pair at the end instead of in key order, which is observationally
equivalent for the lookups the code performs. -/

/-- State mutated by `to_local`: the `global_to_local` ghost map and
`ghost_counter`. -/
structure GhostState where
  globalToLocal : List (ℕ × ℕ)
  ghostCounter : ℕ
deriving DecidableEq

/-- Ghost state at the start of mesh generation (`ghost_counter = 0`, empty
map). -/
def initGhostState : GhostState := ⟨[], 0⟩

/-- Translation of `BlockArrays::Implementation::to_local`
(BlockData.cpp:337-350), identical to the tail of
`NodeIndices3D::operator()` / `NodeIndices2D::operator()`: owned global ids
are shifted by `local_nodes_begin`; other ids go through the ghost map, where
`std::map::insert` keeps an existing entry and reports whether a new one was
created, and `ghost_counter` is incremented only on a fresh insertion. -/
def toLocal (lbegin lend : ℕ) (gid : ℕ) (s : GhostState) : ℕ × GhostState :=
  if lbegin ≤ gid ∧ gid < lend then
    (gid - lbegin, s)
  else
    let lid := lend - lbegin + s.ghostCounter
    match s.globalToLocal.lookup gid with
    | some v => (v, s)
    | none => (lid, ⟨s.globalToLocal ++ [(gid, lid)], s.ghostCounter + 1⟩)

/-- Invariant of the ghost map: its values are exactly the contiguous range
starting at the local owned-node count with `ghost_counter` entries, and its
keys are pairwise distinct. -/
def ghostInv (nbLocal : ℕ) (s : GhostState) : Prop :=
  s.globalToLocal.map Prod.snd = List.range' nbLocal s.ghostCounter ∧
  (s.globalToLocal.map Prod.fst).Nodup

/-! ### `NodeIndices3D` as a constructed object (rank dependence) -/

/-- Fields of `NodeIndices3D` relevant to index lookups: the topology the
oracle routes through plus the rank-derived locality window. -/
structure NI3 where
  topo : Topo3
  rank : ℕ
  nbProcs : ℕ
  localNodesBegin : ℕ
  localNodesEnd : ℕ

/-- Translation of the `NodeIndices3D` constructor (BlockData.cpp:1147-1199):
`m_local_nodes_begin = nodes_dist[rank]`, `m_local_nodes_end =
nodes_dist[rank+1]`. -/
def mkNI3 (T : Topo3) (dist : ℕ → ℕ) (nbProcs rank : ℕ) : NI3 where
  topo := T
  rank := rank
  nbProcs := nbProcs
  localNodesBegin := nodesDist3 T dist rank
  localNodesEnd := nodesDist3 T dist (rank + 1)

/-- Method `NodeIndices3D::global_idx` of a constructed object: it reads only
topology-derived data (`block_first_nodes`, `bounded`, face connectivity). -/
def NI3.globalIdx (s : NI3) (fuel b i j k : ℕ) : Option ℕ :=
  globalIdx3 s.topo fuel b i j k

/-- Method `NodeIndices3D::operator()` (BlockData.cpp:1207-1221): global
lookup followed by the local/ghost translation, which does read the
rank-derived window. -/
def NI3.localIdx (s : NI3) (fuel b i j k : ℕ) (g : GhostState) :
    Option ℕ × GhostState :=
  match s.globalIdx fuel b i j k with
  | none => (none, g)
  | some gid =>
    match toLocal s.localNodesBegin s.localNodesEnd gid g with
    | (l, g2) => (some l, g2)

/-! ### Edge grading (`detail::create_mapped_coords`)

The source works on IEEE doubles; the model uses exact real arithmetic.  The
branch condition `fabs(grading - 1.) > 1.e-6` and the formulas are taken
verbatim; `pow(grading, 1./(segments-1))` becomes `Real.rpow`.  (For
`segments = 0` the C code computes `1./Uint(-1)`, a tiny positive exponent,
where the model's natural subtraction gives exponent `1/0 = 0`; both sides
make `r` approximately resp. exactly `1` and fail the same endpoint
assertion.) -/

/-- Coordinate formula of the graded branch (BlockData.cpp:73-76):
`r = pow(grading, 1/(segments-1))`, `x_i = 2 (1 - r^i)/(1 - grading r) - 1`. -/
noncomputable def gradedCoord (segments : ℕ) (grading : ℝ) (i : ℕ) : ℝ :=
  2 * (1 - (grading ^ ((1 : ℝ) / ((segments - 1 : ℕ) : ℝ))) ^ i) /
    (1 - grading * grading ^ ((1 : ℝ) / ((segments - 1 : ℕ) : ℝ))) - 1

/-- Translation of the value `mapped_coords[i][edge]` computed by
`detail::create_mapped_coords` (BlockData.cpp:64-95) for one edge. -/
noncomputable def mappedCoord (segments : ℕ) (grading : ℝ) (i : ℕ) : ℝ :=
  if 1e-6 < |grading - 1| then gradedCoord segments grading i
  else (i : ℝ) * (2 / (segments : ℝ)) - 1

/-- The full column of `segments + 1` mapped coordinates for one edge. -/
noncomputable def mappedCoords (segments : ℕ) (grading : ℝ) : List ℝ :=
  (List.range (segments + 1)).map (mappedCoord segments grading)

/-- IEEE double-precision machine epsilon, `2^-52`. -/
noncomputable def machineEps : ℝ := 1 / 2 ^ 52

/-- Error outcomes of the grading routine.  `assertionFailed` models the
`cf3_assert` checks of the source (`AssertionManager` throws
`FailedAssertionException` when a check fails); `invalidGrading` is the error
kind named by the spec, which the source never raises — it exists here only
so the spec's claim can be stated. -/
inductive CoordsError where
  | assertionFailed : CoordsError
  | invalidGrading : CoordsError
deriving DecidableEq

/-- Translation of `detail::create_mapped_coords` including its `cf3_assert`
checks: every coordinate must satisfy `|x| < 1 + 150 eps` and the endpoints
must be `-1` and `+1` to within `150 eps`; a violated check throws (modelled
as `assertionFailed`).  The routine performs no validation of `grading` or
`segments` before computing. -/
noncomputable def createMappedCoords (segments : ℕ) (grading : ℝ) :
    Except CoordsError (List ℝ) :=
  if (∀ i, i ≤ segments → |mappedCoord segments grading i| < 1 + 150 * machineEps) ∧
     |mappedCoord segments grading 0 + 1| < 150 * machineEps ∧
     |mappedCoord segments grading segments - 1| < 150 * machineEps
  then Except.ok (mappedCoords segments grading)
  else Except.error CoordsError.assertionFailed

/-! ### Grading adjustment when the partitioner cuts a block
(`partition_blocks_3d`, BlockData.cpp:2400-2460)

When a block of `n` slices along the partition axis is cut after `s` slices,
the code recomputes the four axis gradings of both halves from the
mapped-coordinate table `mapped_coords` built from the block's four gradings
on that axis.  For edge slot `i` it reads column `grading_idx`, where
`grading_idx = (end_direction != ETA_POS || i == 0 || i == 3) ? i : (i == 1 ? 3 : 2)`. -/

/-- The column selector `grading_idx` of the 3D partitioner; `dirIsY` is
`end_direction == Hexa::ETA_POS`.  Note it maps `(0,1,2,3)` to `(0,3,2,3)`
when `dirIsY`: column 1 is never read and column 3 is read twice. -/
def gradingColumn3 (dirIsY : Bool) (i : ℕ) : ℕ :=
  if !dirIsY ∨ i = 0 ∨ i = 3 then i else if i = 1 then 3 else 2

/-- Left-half grading written for slot `i` (BlockData.cpp:2446):
`(mc[s][g] - mc[s-1][g]) / (mc[1][g] - mc[0][g])` with `g = grading_idx`. -/
noncomputable def newLeftGrading3 (dirIsY : Bool) (gradings : ℕ → ℝ)
    (n s i : ℕ) : ℝ :=
  let g := gradings (gradingColumn3 dirIsY i)
  (mappedCoord n g s - mappedCoord n g (s - 1)) /
  (mappedCoord n g 1 - mappedCoord n g 0)

/-- Right-half grading written for slot `i` (BlockData.cpp:2448):
`(mc[n][g] - mc[n-1][g]) / (mc[s+1][g] - mc[s][g])`. -/
noncomputable def newRightGrading3 (dirIsY : Bool) (gradings : ℕ → ℝ)
    (n s i : ℕ) : ℝ :=
  let g := gradings (gradingColumn3 dirIsY i)
  (mappedCoord n g n - mappedCoord n g (n - 1)) /
  (mappedCoord n g (s + 1) - mappedCoord n g s)

/-- Grading ratios the spec prescribes for the edge whose grading sequence is
column `i` itself. -/
noncomputable def specLeftGrading3 (gradings : ℕ → ℝ) (n s i : ℕ) : ℝ :=
  (mappedCoord n (gradings i) s - mappedCoord n (gradings i) (s - 1)) /
  (mappedCoord n (gradings i) 1 - mappedCoord n (gradings i) 0)

/-- Concrete per-axis gradings exercising the bad column map: edge 1 is
graded 4:1, the other three edges are uniform. -/
noncomputable def gradingsYbug : ℕ → ℝ := fun i => if i = 1 then 4 else 1

/-! ### The 2D block partitioner (`partition_blocks_2d`, BlockData.cpp:2561-2852)

Discrete skeleton of the partitioner.  The real-valued data it carries
(point coordinates, gradings, the mapped-coordinate evaluation at the cut)
never feeds back into control flow, block counts, subdivisions or the block
distribution, so it is dropped here; only the number of points is tracked
(`blocks_out.points.size()` is used to allocate node ids for cut faces).
`cf3_assert` aborts are modelled as `none`.

Faces of a block are numbered as in the source: `YNEG = 0`, `XPOS = 1`,
`YPOS = 2`, `XNEG = 3`.  The face-local corner enumeration
`Quad2D::faces().nodes_range(f)` comes from `LagrangeP1/Quad2D`, which is not
part of this repository snapshot; `faceNodes2` is modelled from the spec:
canonical 2D corner order is counter-clockwise starting bottom-left, so the
faces are the corner pairs (0,1), (1,2), (2,3), (3,0). -/

/-- Answer of `volume_to_face_connectivity.adjacent_element` on the serial
block mesh: a neighbouring volume block (`DIM_2D` element) or a boundary
patch element together with its patch index (`DIM_1D` element, patch index
standing for `patch_idx_map[parent name]`). -/
inductive FaceAdj where
  | vol : ℕ → FaceAdj
  | patch : ℕ → FaceAdj
deriving DecidableEq

/-- Input block data for the 2D partitioner (discrete part of `BlockData`). -/
structure Blocks2 where
  nbPoints : ℕ
  blockPoints : List (List ℕ)
  subdiv : List (List ℕ)
  nbPatches : ℕ
  adj : ℕ → ℕ → FaceAdj

/-- Modelled from the spec: face-local corner lists of the quadrilateral
element (`Quad2D::faces().nodes_range`). -/
def faceNodes2 : ℕ → List ℕ
  | 0 => [0, 1]
  | 1 => [1, 2]
  | 2 => [2, 3]
  | _ => [3, 0]

/-- Face to sweep from: `XNEG` for direction `XX` (0), `YNEG` for `YY`. -/
def startDirection (dir : ℕ) : ℕ := if dir = 0 then 3 else 0

/-- Opposite face: `XPOS` for direction `XX`, `YPOS` for `YY`. -/
def endDirection (dir : ℕ) : ℕ := if dir = 0 then 1 else 2

/-- Transverse faces (`transverse_directions`). -/
def transverseDirections (dir : ℕ) : List ℕ := if dir = 0 then [0, 2] else [3, 1]

/-- Transverse axis (`transverse_axe`). -/
def transverseAxis (dir : ℕ) : ℕ := if dir = 0 then 1 else 0

/-- Segment count of block `b` along axis `ax` in a subdivision table. -/
def getSeg (subdiv : List (List ℕ)) (b ax : ℕ) : ℕ := (subdiv.getD b []).getD ax 0

/-- Start-of-sweep test (BlockData.cpp:2602-2624): the start-direction face
carries a patch, and every transverse volume neighbour also has a patch on
its start-direction face. -/
def isStartBlock (B : Blocks2) (dir b : ℕ) : Bool :=
  match B.adj b (startDirection dir) with
  | FaceAdj.vol _ => false
  | FaceAdj.patch _ =>
    (transverseDirections dir).all fun td =>
      match B.adj b td with
      | FaceAdj.patch _ => true
      | FaceAdj.vol t =>
        match B.adj t (startDirection dir) with
        | FaceAdj.vol _ => false
        | FaceAdj.patch _ => true

/-- Initial block layer: all blocks passing `isStartBlock`. -/
def initialLayer (B : Blocks2) (dir : ℕ) : List ℕ :=
  (List.range B.blockPoints.length).filter fun b => isStartBlock B dir b

/-- Total element count (BlockData.cpp:2627-2629). -/
def totalElems2b (B : Blocks2) : ℕ :=
  (List.range B.blockPoints.length).foldl
    (fun acc b => acc + getSeg B.subdiv b 0 * getSeg B.subdiv b 1) 0

/-- Integer form of `Uint(ceil(Real(a) / Real(b)))` for `b > 0`. -/
def ceilDiv (a b : ℕ) : ℕ := (a + b - 1) / b

/-- Mutable state threaded through the partition loop. -/
structure PartState where
  outNbPoints : ℕ
  outBlockPoints : List (List ℕ)
  outSubdiv : List (List ℕ)
  outDist : List ℕ
  outPatchPoints : List (List ℕ)
  tpSubdiv : List (List ℕ)
  startMap : List ℕ
  endMap : List ℕ
  nextLayer : List ℕ
  nbPartitioned : ℕ
deriving DecidableEq

/-- New-block corner list at the start of a while-iteration
(BlockData.cpp:2688-2696): a zero-initialized 4-list whose start-face corners
are filled through `start_node_mapping`. -/
def newBlockStart (B : Blocks2) (dir : ℕ) (startMap : List ℕ) (b : ℕ) : List ℕ :=
  (faceNodes2 (startDirection dir)).foldl
    (fun nb i => nb.set i (startMap.getD ((B.blockPoints.getD b []).getD i 0) 0))
    [0, 0, 0, 0]

/-- One iteration of the split branch's edge loop (BlockData.cpp:2707-2739)
for edge `i`: on the first visit of the end node, allot it the next output
point id and redirect the matching start node there.  The coordinate and
grading computations of the source are real-valued only and are dropped. -/
def splitEdgeStep (B : Blocks2) (dir : ℕ) (st : PartState × List Bool) (b i : ℕ) :
    PartState × List Bool :=
  let s := st.1
  let mapped := st.2
  let origEnd := (B.blockPoints.getD b []).getD ((faceNodes2 (endDirection dir)).getD i 0) 0
  let origStart :=
    (B.blockPoints.getD b []).getD
      ((faceNodes2 (startDirection dir)).getD (if i = 0 then 1 else 0) 0) 0
  if mapped.getD origEnd false then (s, mapped)
  else
    ({ s with
        endMap := s.endMap.set origEnd s.outNbPoints
        startMap := s.startMap.set origStart s.outNbPoints
        outNbPoints := s.outNbPoints + 1 },
      mapped.set origEnd true)

/-- Split-branch handling of one layer block (BlockData.cpp:2700-2756):
run the two edge steps, then emit a left half with `partition_nb_slices`
slices and shrink the remaining block. -/
def splitBlock (B : Blocks2) (dir pns : ℕ) (st : PartState × List Bool) (b : ℕ) :
    PartState × List Bool :=
  let st1 := splitEdgeStep B dir (splitEdgeStep B dir st b 0) b 1
  let s := st1.1
  let newSub := (s.tpSubdiv.getD b []).set dir pns
  let remSub := (s.tpSubdiv.getD b []).set dir ((s.tpSubdiv.getD b []).getD dir 0 - pns)
  ({ s with
      outSubdiv := s.outSubdiv ++ [newSub]
      tpSubdiv := s.tpSubdiv.set b remSub },
    st1.2)

/-- Whole-block branch handling of one layer block (BlockData.cpp:2772-2787):
emit the remaining block, reset the end-node mapping of its end corners, and
push its start-direction volume neighbour onto the next layer. -/
def wholeBlock (B : Blocks2) (dir : ℕ) (s : PartState) (b : ℕ) : PartState :=
  let s1 := { s with outSubdiv := s.outSubdiv ++ [s.tpSubdiv.getD b []] }
  let em :=
    [0, 1].foldl
      (fun em i =>
        let origEnd :=
          (B.blockPoints.getD b []).getD ((faceNodes2 (endDirection dir)).getD i 0) 0
        em.set origEnd origEnd)
      s1.endMap
  let nl :=
    match B.adj b (startDirection dir) with
    | FaceAdj.vol v => s1.nextLayer ++ [v]
    | FaceAdj.patch _ => s1.nextLayer
  { s1 with endMap := em, nextLayer := nl }

/-- Transverse growth of the next layer (BlockData.cpp:2790-2803).  The
source iterates `BOOST_FOREACH` over the vector while appending to it; the
model iterates over a snapshot of the layer, which agrees on the block
arrangements exercised here. -/
def growLayer (B : Blocks2) (dir : ℕ) (layer : List ℕ) : List ℕ :=
  layer.foldl
    (fun acc b =>
      (transverseDirections dir).foldl
        (fun acc td =>
          match B.adj b td with
          | FaceAdj.patch _ => acc
          | FaceAdj.vol t => if acc.contains t then acc else acc ++ [t])
        acc)
    layer

/-- Finish one layer block at the end of a while-iteration
(BlockData.cpp:2809-2814): fill the end-face corners of its new-block corner
list through `end_node_mapping`.  Note the source indexes `new_blocks` by the
global block id, not the layer position. -/
def finishBlock (B : Blocks2) (dir : ℕ) (endMap : List ℕ)
    (newBlocks : List (List ℕ)) (b : ℕ) : List ℕ :=
  (faceNodes2 (endDirection dir)).foldl
    (fun nb i => nb.set i (endMap.getD ((B.blockPoints.getD b []).getD i 0) 0))
    (newBlocks.getD b [])

/-- Patch contributions of one finished block (BlockData.cpp:2816-2828):
every transverse patch face contributes the new block's corners on that
face. -/
def appendPatches (B : Blocks2) (dir : ℕ) (pp : List (List ℕ)) (nb : List ℕ)
    (b : ℕ) : List (List ℕ) :=
  (transverseDirections dir).foldl
    (fun pp td =>
      match B.adj b td with
      | FaceAdj.vol _ => pp
      | FaceAdj.patch p => pp.set p ((pp.getD p []) ++ (faceNodes2 td).map fun i => nb.getD i 0))
    pp

/-- Tail of a while-iteration (BlockData.cpp:2809-2829): push the finished
corner list of every layer block and its transverse patch faces. -/
def finishIter (B : Blocks2) (dir : ℕ) (layer : List ℕ)
    (newBlocks : List (List ℕ)) (s : PartState) : PartState :=
  layer.foldl
    (fun s b =>
      let nb := finishBlock B dir s.endMap newBlocks b
      { s with
          outBlockPoints := s.outBlockPoints ++ [nb]
          outPatchPoints := appendPatches B dir s.outPatchPoints nb b })
    s

/-- The `while(partition_nb_slices)` loop (BlockData.cpp:2682-2830), bounded
by `fuel`. -/
def runWhile (B : Blocks2) (dir : ℕ) (layer : List ℕ) :
    ℕ → ℕ → PartState → Option PartState
  | 0, _, _ => none
  | fuel + 1, pns, s =>
    if pns = 0 then some s
    else
      let blockNbSlices := getSeg s.tpSubdiv (layer.headD 0) dir
      let newBlocks := layer.map (newBlockStart B dir s.startMap)
      if pns < blockNbSlices then
        let st := layer.foldl (fun st b => splitBlock B dir pns st b)
          (s, List.replicate B.nbPoints false)
        runWhile B dir layer fuel 0 (finishIter B dir layer newBlocks st.1)
      else
        let s1 := layer.foldl (fun s b => wholeBlock B dir s b) { s with nextLayer := [] }
        let s2 := { s1 with nextLayer := growLayer B dir s1.nextLayer }
        runWhile B dir layer fuel (pns - blockNbSlices) (finishIter B dir layer newBlocks s2)

/-- The partition loop (BlockData.cpp:2659-2831), counting down the remaining
partitions.  `cf3_assert(slice_size)`, `cf3_assert(partition ==
nb_partitions-1)` and `cf3_assert(remaining % slice == 0)` abort the run
(`none`). -/
def runPartitions (B : Blocks2) (dir total partSize wFuel : ℕ) :
    ℕ → PartState → Option PartState
  | 0, s => some s
  | p + 1, s =>
    let s1 := { s with outDist := s.outDist ++ [s.outBlockPoints.length] }
    let layer := s1.nextLayer
    let slice := layer.foldl (fun acc b => acc + getSeg s1.tpSubdiv b (transverseAxis dir)) 0
    if slice = 0 then none
    else
      let pns0 := ceilDiv partSize slice
      if total < s1.nbPartitioned + pns0 * slice then
        if p = 0 ∧ (total - s1.nbPartitioned) % slice = 0 then
          let pns := (total - s1.nbPartitioned) / slice
          let s2 := { s1 with nbPartitioned := s1.nbPartitioned + pns * slice }
          match runWhile B dir layer wFuel pns s2 with
          | none => none
          | some s3 => runPartitions B dir total partSize wFuel p s3
        else none
      else
        let s2 := { s1 with nbPartitioned := s1.nbPartitioned + pns0 * slice }
        match runWhile B dir layer wFuel pns0 s2 with
        | none => none
        | some s3 => runPartitions B dir total partSize wFuel p s3

/-- Final patch preservation (BlockData.cpp:2836-2851): the original start-
and end-direction patch faces of every input block are appended unchanged. -/
def preservePatches (B : Blocks2) (dir : ℕ) (pp : List (List ℕ)) : List (List ℕ) :=
  (List.range B.blockPoints.length).foldl
    (fun pp b =>
      [startDirection dir, endDirection dir].foldl
        (fun pp fd =>
          match B.adj b fd with
          | FaceAdj.vol _ => pp
          | FaceAdj.patch p =>
            pp.set p ((pp.getD p []) ++ (faceNodes2 fd).map fun i => (B.blockPoints.getD b []).getD i 0))
        pp)
    pp

/-- Discrete output of the partitioner. -/
structure PartOut where
  dist : List ℕ
  subdivs : List (List ℕ)
  blockPoints : List (List ℕ)
  patchPoints : List (List ℕ)
  nbPoints : ℕ
deriving DecidableEq

/-- Translation of `partition_blocks_2d`: initialize the output from the
input (points kept, block tables cleared), run the partition loop, then push
the final distribution entry and preserve the lengthwise patches. -/
def partitionBlocks2 (B : Blocks2) (nbParts dir wFuel : ℕ) : Option PartOut :=
  let total := totalElems2b B
  let pSize := ceilDiv total nbParts
  let init : PartState :=
    { outNbPoints := B.nbPoints
      outBlockPoints := []
      outSubdiv := []
      outDist := []
      outPatchPoints := List.replicate B.nbPatches []
      tpSubdiv := B.subdiv
      startMap := List.range B.nbPoints
      endMap := List.range B.nbPoints
      nextLayer := initialLayer B dir
      nbPartitioned := 0 }
  (runPartitions B dir total pSize wFuel nbParts init).map fun s =>
    { dist := s.outDist ++ [s.outBlockPoints.length]
      subdivs := s.outSubdiv
      blockPoints := s.outBlockPoints
      patchPoints := preservePatches B dir s.outPatchPoints
      nbPoints := s.outNbPoints }

/-- Element count of one partition of the output: the sum of the subdivision
products of the output blocks in the range `dist[p] .. dist[p+1]`. -/
def sectionElems (o : PartOut) (p : ℕ) : ℕ :=
  ((List.range (o.dist.getD (p + 1) 0 - o.dist.getD p 0)).map fun i =>
    getSeg o.subdivs (o.dist.getD p 0 + i) 0 * getSeg o.subdivs (o.dist.getD p 0 + i) 1).sum

/-- Concrete input: a single 10 x 5 block (50 elements), all four faces in
patch 0, to be cut into 4 partitions along X. -/
def rect105 : Blocks2 where
  nbPoints := 4
  blockPoints := [[0, 1, 2, 3]]
  subdiv := [[10, 5]]
  nbPatches := 1
  adj := fun _ _ => FaceAdj.patch 0

/-- Output of partitioning `rect105` into 4 parts along X: three 3-slice
blocks and one 1-slice block, one block per partition. -/
def rect105out : PartOut where
  dist := [0, 1, 2, 3, 4]
  subdivs := [[3, 5], [3, 5], [3, 5], [1, 5]]
  blockPoints := [[0, 4, 5, 3], [4, 6, 7, 5], [6, 8, 9, 7], [8, 1, 2, 9]]
  patchPoints := [[0, 4, 5, 3, 4, 6, 7, 5, 6, 8, 9, 7, 8, 1, 2, 9, 3, 0, 1, 2]]
  nbPoints := 10

/-! ## Theorems -/

lemma firstNodes3_mono (T : Topo3) {a b : ℕ} (h : a ≤ b) :
    firstNodes3 T a ≤ firstNodes3 T b := by
  have step : ∀ n, firstNodes3 T n ≤ firstNodes3 T (n + 1) := by
    intro n
    simp [firstNodes3]
  exact monotone_nat_of_le_succ step h

lemma nodesDist3_eq (T : Topo3) (d : ℕ → ℕ) (h0 : d 0 = 0) :
    ∀ p, (∀ q, q < p → d q ≤ d (q + 1)) → nodesDist3 T d p = firstNodes3 T (d p) := by
  intro p
  induction p with
  | zero => intro _; simp [nodesDist3, h0, firstNodes3]
  | succ p ih =>
    intro hm
    have h1 : nodesDist3 T d p = firstNodes3 T (d p) :=
      ih fun q hq => hm q (Nat.lt_succ_of_lt hq)
    have h2 : firstNodes3 T (d p) ≤ firstNodes3 T (d (p + 1)) :=
      firstNodes3_mono T (hm p (Nat.lt_succ_self p))
    simp only [nodesDist3, h1]
    omega

/-- Claim C3: for every block and axis the owned per-axis node count is
`segments + 1` on a bounded positive face and `segments` otherwise; each
block owns the product of these per-axis counts (the `NodeIndices3D`
constructor's sum formula factors into that product); the per-block start
indices `block_first_nodes` are the prefix sums of the owned counts; and for
a block distribution that starts at 0, ends at the number of blocks and is
monotone, the total node count `node_distribution[P]` equals
`block_first_nodes[nb_blocks]`, the total over all blocks. -/
theorem node_count_accounting :
    (∀ (T : Topo3) (b : ℕ),
      nbPointsX3 T b = (if boundedX3 T b then T.sx b + 1 else T.sx b) ∧
      nbPointsY3 T b = (if boundedY3 T b then T.sy b + 1 else T.sy b) ∧
      nbPointsZ3 T b = (if boundedZ3 T b then T.sz b + 1 else T.sz b)) ∧
    (∀ (T : Topo3) (b : ℕ),
      nbNodes3 T b = nbPointsX3 T b * nbPointsY3 T b * nbPointsZ3 T b) ∧
    (∀ (T : Topo3) (b : ℕ),
      firstNodes3 T b = ∑ q ∈ Finset.range b, nbNodes3 T q) ∧
    (∀ (T : Topo3) (P : ℕ) (d : ℕ → ℕ), d 0 = 0 → d P = T.nb →
      (∀ p, p < P → d p ≤ d (p + 1)) →
      nodesDist3 T d P = firstNodes3 T T.nb) := by
  refine ⟨?_, ?_, ?_, ?_⟩
  · intro T b
    refine ⟨?_, ?_, ?_⟩ <;>
      [cases h : boundedX3 T b; cases h : boundedY3 T b; cases h : boundedZ3 T b] <;>
      simp [nbPointsX3, nbPointsY3, nbPointsZ3, h]
  · intro T b
    unfold nbNodes3 nbPointsX3 nbPointsY3 nbPointsZ3
    cases boundedX3 T b <;> cases boundedY3 T b <;> cases boundedZ3 T b <;>
      simp <;> ring
  · intro T b
    induction b with
    | zero => simp [firstNodes3]
    | succ b ih => simp [firstNodes3, Finset.sum_range_succ, ih]
  · intro T P d h0 hP hm
    rw [nodesDist3_eq T d h0 P hm, hP]

/-- Witness for C3: the single-block box topology on one process. -/
theorem node_count_accounting_witness :
    nodesDist3 topoBox (serialDist 1) 1 = firstNodes3 topoBox topoBox.nb :=
  node_count_accounting.2.2.2 topoBox 1 (serialDist 1) rfl rfl (by decide)

/-- Counterexample to claim C8 as stated: with no patches defined, the
surface-emission loop of `create_mesh` (BlockData.cpp:881-889) iterates over
an empty patches group and emits no surface elements at all, so the
generated mesh cannot contain 24 default-patch quadrilaterals — the
`default_patch` region exists only in the inner block mesh, created after
the connectivity that `create_blocks` queries. -/
theorem default_patch_not_emitted :
    emittedSurfaceElems topoBox noPatchOf [] = 0 ∧ (0 : ℕ) ≠ 24 := by
  decide

/-- Claim C8, amended: `create_mesh` emits surface elements only for
user-created patches, never for the default patch.  For the single block
with `segments = (2,2,2)` and all six boundary faces covered by one user
patch, generation on one process yields 27 nodes (`node_distribution[1]`, no
ghosts since every block is local), 8 cells, and 24 surface quadrilaterals
in that patch (6 faces of 2 x 2 elements each); with no patches defined no
surface elements are emitted. -/
theorem unit_box_counts :
    nodesDist3 topoBox (serialDist 1) 1 = 27 ∧ totalElems3 topoBox = 8 ∧
    patchMapElems3 topoBox boxPatchOf 0 = 24 ∧
    emittedSurfaceElems topoBox boxPatchOf [0] = 24 := by
  decide

/-- Claim C9: `global_idx` of a constructed `NodeIndices3D` object reads only
topology-derived state, so two objects built over the same topology and block
distribution on different ranks return the same global id for every node
index; the rank only enters the local window used by `operator()`. -/
theorem global_idx_rank_independent :
    ∀ (T : Topo3) (dist : ℕ → ℕ) (np r1 r2 fuel b i j k : ℕ),
      (mkNI3 T dist np r1).globalIdx fuel b i j k =
      (mkNI3 T dist np r2).globalIdx fuel b i j k := by
  intro T dist np r1 r2 fuel b i j k
  rfl

lemma lookup_none_notin {l : List (ℕ × ℕ)} {a : ℕ} (h : l.lookup a = none) :
    a ∉ l.map Prod.fst := by
  induction l with
  | nil => simp
  | cons p l ih =>
    simp only [List.lookup] at h
    by_cases hpa : a = p.1
    · simp [hpa, beq_iff_eq] at h
    · have : (a == p.1) = false := by simp [hpa]
      rw [this] at h
      simp only [List.map_cons, List.mem_cons]
      push_neg
      exact ⟨hpa, ih h⟩

lemma lookup_append_last {l : List (ℕ × ℕ)} {a v : ℕ} (h : l.lookup a = none) :
    (l ++ [(a, v)]).lookup a = some v := by
  induction l with
  | nil => simp [List.lookup]
  | cons p l ih =>
    simp only [List.lookup] at h ⊢
    by_cases hpa : a = p.1
    · simp [hpa, beq_iff_eq] at h
    · have hb : (a == p.1) = false := by simp [hpa]
      rw [hb] at h ⊢
      exact ih h

/-- Claim C4: `to_local` returns `gid - local_nodes_begin` for gids in the
local window and leaves the state unchanged; outside the window it looks the
gid up in the ghost map, on a miss inserting and returning the fresh local id
`(local_nodes_end - local_nodes_begin) + ghost_counter` with the counter
incremented, and on a hit returning the stored id unchanged. -/
theorem to_local_spec :
    ∀ (lb le gid : ℕ) (s : GhostState),
      (lb ≤ gid → gid < le → toLocal lb le gid s = (gid - lb, s)) ∧
      (¬ (lb ≤ gid ∧ gid < le) → s.globalToLocal.lookup gid = none →
        toLocal lb le gid s =
          (le - lb + s.ghostCounter,
            ⟨s.globalToLocal ++ [(gid, le - lb + s.ghostCounter)], s.ghostCounter + 1⟩)) ∧
      (¬ (lb ≤ gid ∧ gid < le) → ∀ v, s.globalToLocal.lookup gid = some v →
        toLocal lb le gid s = (v, s)) := by
  intro lb le gid s
  refine ⟨?_, ?_, ?_⟩
  · intro h1 h2
    simp [toLocal, h1, h2]
  · intro h hl
    simp [toLocal, h, hl]
  · intro h v hl
    simp [toLocal, h, hl]

/-- Witness for C4: a remote gid allocated as the first ghost. -/
theorem to_local_spec_witness :
    toLocal 10 20 25 initGhostState = (10, ⟨[(25, 10)], 1⟩) :=
  (to_local_spec 10 20 25 initGhostState).2.1 (by decide) rfl

/-- Claim C10: the ghost map's invariant holds initially and is preserved by
every `to_local` call — its values are exactly the contiguous range starting
at the local owned-node count with `ghost_counter` entries (hence the map is
injective) and its keys are distinct; a repeated request for the same gid
returns the same result without changing the state; and under the invariant
`ghost_counter` equals the number of map entries, i.e. the number of distinct
remote gids requested. -/
theorem ghost_map_inv_spec :
    (∀ n, ghostInv n initGhostState) ∧
    (∀ lb le gid (s : GhostState), ghostInv (le - lb) s →
      ghostInv (le - lb) (toLocal lb le gid s).2) ∧
    (∀ lb le gid (s : GhostState),
      toLocal lb le gid (toLocal lb le gid s).2 = toLocal lb le gid s) ∧
    (∀ n (s : GhostState), ghostInv n s → s.globalToLocal.length = s.ghostCounter) := by
  refine ⟨?_, ?_, ?_, ?_⟩
  · intro n
    exact ⟨by simp [initGhostState], by simp [initGhostState]⟩
  · intro lb le gid s hinv
    by_cases hrange : lb ≤ gid ∧ gid < le
    · simpa [toLocal, hrange] using hinv
    · rcases hl : s.globalToLocal.lookup gid with _ | v
      · obtain ⟨hvals, hkeys⟩ := hinv
        refine ⟨?_, ?_⟩
        · simp only [toLocal, if_neg hrange, hl]
          simp only [List.map_append, List.map_cons, List.map_nil, hvals]
          rw [List.range'_concat]
          simp
        · simp only [toLocal, if_neg hrange, hl]
          simp only [List.map_append, List.map_cons, List.map_nil]
          rw [List.nodup_append]
          refine ⟨hkeys, List.nodup_singleton _, ?_⟩
          intro a ha hmem
          rw [List.mem_singleton] at hmem
          subst hmem
          exact lookup_none_notin hl ha
      · simpa [toLocal, hrange, hl] using hinv
  · intro lb le gid s
    by_cases hrange : lb ≤ gid ∧ gid < le
    · simp [toLocal, hrange]
    · rcases hl : s.globalToLocal.lookup gid with _ | v
      · have h2 := lookup_append_last (v := le - lb + s.ghostCounter) hl
        simp [toLocal, hrange, hl, h2]
      · simp [toLocal, hrange, hl]
  · intro n s hinv
    have := congrArg List.length hinv.1
    simpa using this

/-- Witness for C10: the invariant after a first remote request. -/
theorem ghost_map_inv_spec_witness :
    ghostInv 10 (toLocal 10 20 3 initGhostState).2 :=
  ghost_map_inv_spec.2.1 10 20 3 initGhostState ⟨rfl, List.nodup_nil⟩

/-- Counterexample to claim C1 as stated: in the L-shaped topology, block 0
and block 2 share block 0's positive-Y face; the node `(1, 1, 0)` of block 0
lies on that face (it is the same physical node as `(1, 0, 0)` of block 2,
on the face's positive-X edge), yet the oracle resolves it to gid 4 from
block 0 (routing X first into block 1, which stores it) and to gid 11 from
block 2 (which is X-bounded and stores it itself). -/
theorem shared_face_gid_counterexample :
    topoL.adjY 0 = some 2 ∧ topoL.sy 0 = 1 ∧ topoL.sy 2 = 1 ∧
    globalIdx3 topoL 3 0 1 1 0 = some 4 ∧
    globalIdx3 topoL 3 2 1 0 0 = some 11 ∧
    globalIdx3 topoL 3 0 1 1 0 ≠ globalIdx3 topoL 3 2 1 0 0 := by
  decide

/-- Claim C1, amended: for every shared face between two blocks, every node
in the interior of the face with respect to the positive transverse
directions (transverse indices strictly below both blocks' transverse
segment counts) resolves to the same gid from either block, in the 3D oracle
(all three axes) and the 2D oracle (both axes).  Nodes on the positive
transverse edges of a shared face can resolve differently when the blocks
around the edge form a concave corner (see the counterexample). -/
theorem shared_face_gid_spec :
    (∀ (T : Topo3) (f g b a j k : ℕ), T.adjX b = some a →
      j < T.sy b → k < T.sz b → j < T.sy a → k < T.sz a → 0 < T.sx a →
      globalIdx3 T (f + 1) b (T.sx b) j k = globalIdx3 T (g + 1) a 0 j k) ∧
    (∀ (T : Topo3) (f g b a i k : ℕ), T.adjY b = some a →
      i < T.sx b → k < T.sz b → i < T.sx a → k < T.sz a → 0 < T.sy a →
      globalIdx3 T (f + 1) b i (T.sy b) k = globalIdx3 T (g + 1) a i 0 k) ∧
    (∀ (T : Topo3) (f g b a i j : ℕ), T.adjZ b = some a →
      i < T.sx b → j < T.sy b → i < T.sx a → j < T.sy a → 0 < T.sz a →
      globalIdx3 T (f + 1) b i j (T.sz b) = globalIdx3 T (g + 1) a i j 0) ∧
    (∀ (T : Topo2) (f g b a j : ℕ), T.adjX b = some a →
      j < T.sy b → j < T.sy a → 0 < T.sx a →
      globalIdx2 T (f + 1) b (T.sx b) j = globalIdx2 T (g + 1) a 0 j) ∧
    (∀ (T : Topo2) (f g b a i : ℕ), T.adjY b = some a →
      i < T.sx b → i < T.sx a → 0 < T.sy a →
      globalIdx2 T (f + 1) b i (T.sy b) = globalIdx2 T (g + 1) a i 0) := by
  refine ⟨?_, ?_, ?_, ?_, ?_⟩
  · intro T f g b a j k hadj hjb hkb hja hka hxa
    simp only [globalIdx3]
    simp [hadj, hjb.ne, hkb.ne, hja.ne, hka.ne, hxa.ne, hxa.ne']
    ring
  · intro T f g b a i k hadj hib hkb hia hka hya
    simp only [globalIdx3]
    simp [hadj, hib.ne, hkb.ne, hia.ne, hka.ne, hya.ne, hya.ne']
    ring
  · intro T f g b a i j hadj hib hjb hia hja hza
    simp only [globalIdx3]
    simp [hadj, hib.ne, hjb.ne, hia.ne, hja.ne, hza.ne, hza.ne']
  · intro T f g b a j hadj hjb hja hxa
    simp only [globalIdx2]
    simp [hadj, hjb.ne, hja.ne, hxa.ne, hxa.ne']
  · intro T f g b a i hadj hib hia hya
    simp only [globalIdx2]
    simp [hadj, hib.ne, hia.ne, hya.ne, hya.ne']

/-- Witness for C1: the two-block channel's shared X face. -/
theorem shared_face_gid_spec_witness :
    globalIdx3 topoChan 1 0 (topoChan.sx 0) 0 0 = globalIdx3 topoChan 1 1 0 0 0 :=
  shared_face_gid_spec.1 topoChan 0 0 0 1 0 0 rfl (by decide) (by decide)
    (by decide) (by decide) (by decide)

lemma gradedCoord_zero (n : ℕ) (r : ℝ) : gradedCoord n r 0 = -1 := by
  simp [gradedCoord]

lemma graded_core {n : ℕ} {r : ℝ} (hn : 2 ≤ n) (hr : 0 < r) (hr1 : r ≠ 1) :
    gradedCoord n r n = 1 ∧
    (gradedCoord n r n - gradedCoord n r (n - 1)) /
      (gradedCoord n r 1 - gradedCoord n r 0) = r := by
  unfold gradedCoord
  set q := r ^ ((1 : ℝ) / ((n - 1 : ℕ) : ℝ)) with hqdef
  have hmr : ((n - 1 : ℕ) : ℝ) ≠ 0 := Nat.cast_ne_zero.mpr (by omega)
  have hqpos : 0 < q := Real.rpow_pos_of_pos hr _
  have hqr : q ^ (n - 1) = r := by
    rw [hqdef, ← Real.rpow_natCast (r ^ ((1 : ℝ) / ((n - 1 : ℕ) : ℝ))) (n - 1),
      ← Real.rpow_mul hr.le, one_div, inv_mul_cancel₀ hmr, Real.rpow_one]
  have hq1 : q ≠ 1 := by
    intro h
    apply hr1
    rw [← hqr, h, one_pow]
  have hqn : q ^ n = r * q := by
    have hn' : n = (n - 1) + 1 := by omega
    rw [hn', pow_succ, hqr]
  have hD : 1 - r * q ≠ 0 := by
    rw [← hqn]
    intro h
    have hq_one : q ^ n = 1 := by linarith
    rcases lt_trichotomy q 1 with hlt | heq | hgt
    · have := pow_lt_one₀ hqpos.le hlt (by omega : n ≠ 0)
      linarith
    · exact hq1 heq
    · have := one_lt_pow₀ hgt (by omega : n ≠ 0)
      linarith
  have hlast : 2 * (1 - q ^ n) / (1 - r * q) - 1 = 1 := by
    rw [hqn, mul_div_assoc, div_self hD]
    norm_num
  refine ⟨hlast, ?_⟩
  have hq1' : (1 : ℝ) - q ≠ 0 := sub_ne_zero.mpr hq1.symm
  have hnum : (2 * (1 - q ^ n) / (1 - r * q) - 1) -
      (2 * (1 - q ^ (n - 1)) / (1 - r * q) - 1) =
      q ^ (n - 1) * (2 * (1 - q) / (1 - r * q)) := by
    rw [show q ^ n = q ^ (n - 1) * q by rw [← pow_succ]; congr 1; omega]
    field_simp
    ring
  have hden : (2 * (1 - q ^ 1) / (1 - r * q) - 1) -
      (2 * (1 - q ^ 0) / (1 - r * q) - 1) = 2 * (1 - q) / (1 - r * q) := by
    simp [pow_one]
  have hden_ne : 2 * (1 - q) / (1 - r * q) ≠ 0 :=
    div_ne_zero (mul_ne_zero two_ne_zero hq1') hD
  rw [hnum, hden, mul_div_assoc, div_self hden_ne, mul_one, hqr]

/-- Claim C2, amended: the grading routine produces `n + 1` coordinates; when
`|r - 1| <= 1e-6` (the source's uniform-branch condition, not `r = 1`) the
spacing is uniform, `x_i = -1 + 2 i / n`, with exact endpoints for `n >= 1`;
when `|r - 1| > 1e-6`, `r > 0` and `n >= 2`, the coordinates follow the
geometric formula with `q = r^(1/(n-1))`, the endpoints are exactly `-1` and
`+1` (so certainly within `150 eps`), and the last-to-first segment-length
ratio is exactly `r` (so certainly within `1e-10`).  The amendment replaces
the claim's `r = 1` / `r != 1` split by the code's `1e-6` tolerance split and
restricts the geometric branch to `n >= 2`, where its formula is defined. -/
theorem mapped_coords_spec :
    ∀ (n : ℕ) (r : ℝ),
      (mappedCoords n r).length = n + 1 ∧
      (|r - 1| ≤ 1e-6 →
        (∀ i, mappedCoord n r i = -1 + 2 * i / n) ∧
        mappedCoord n r 0 = -1 ∧ (1 ≤ n → mappedCoord n r n = 1)) ∧
      (1e-6 < |r - 1| → 0 < r → 2 ≤ n →
        (∀ i, mappedCoord n r i =
          2 * (1 - (r ^ ((1 : ℝ) / ((n - 1 : ℕ) : ℝ))) ^ i) /
            (1 - r * r ^ ((1 : ℝ) / ((n - 1 : ℕ) : ℝ))) - 1) ∧
        mappedCoord n r 0 = -1 ∧ mappedCoord n r n = 1 ∧
        (mappedCoord n r n - mappedCoord n r (n - 1)) /
          (mappedCoord n r 1 - mappedCoord n r 0) = r) := by
  intro n r
  refine ⟨by simp [mappedCoords], ?_, ?_⟩
  · intro h
    have hcond : ¬ 1e-6 < |r - 1| := not_lt.mpr h
    refine ⟨fun i => ?_, by simp [mappedCoord, hcond], fun hn => ?_⟩
    · simp only [mappedCoord, if_neg hcond]
      ring
    · have hn0 : (n : ℝ) ≠ 0 := Nat.cast_ne_zero.mpr (by omega)
      simp only [mappedCoord, if_neg hcond]
      field_simp
      norm_num
  · intro hcond hr hn
    have hr1 : r ≠ 1 := by
      intro h
      rw [h] at hcond
      norm_num at hcond
    obtain ⟨hlast, hratio⟩ := graded_core hn hr hr1
    have hg : ∀ i, mappedCoord n r i = gradedCoord n r i := fun i => by
      simp [mappedCoord, hcond]
    refine ⟨fun i => by rw [hg i]; rfl, by rw [hg 0]; exact gradedCoord_zero n r,
      by rw [hg n]; exact hlast, ?_⟩
    simp only [hg]
    exact hratio

/-- Witness for C2: `n = 2`, `r = 4`, where `q = 4` and the ratio is exact. -/
theorem mapped_coords_spec_witness :
    mappedCoord 2 4 2 = 1 ∧
    (mappedCoord 2 4 2 - mappedCoord 2 4 1) / (mappedCoord 2 4 1 - mappedCoord 2 4 0) = 4 := by
  have habs : 1e-6 < |(4 : ℝ) - 1| := by
    rw [show (4 : ℝ) - 1 = 3 by norm_num, abs_of_pos (by norm_num)]
    norm_num
  have h := (mapped_coords_spec 2 4).2.2 habs (by norm_num) (by norm_num)
  exact ⟨h.2.2.1, h.2.2.2⟩

/-- Counterexample to claim C2 as stated: for `r = 1 + 1e-7` (nonzero, `r != 1`)
and `n = 2` the code takes the uniform branch because `|r - 1| <= 1e-6`, so
`x_1 = 0` instead of the claimed geometric value and the last-to-first ratio
is `1`, which differs from `r` by `1e-7 > 1e-10`. -/
theorem mapped_coords_counterexample :
    (1 + 1e-7 : ℝ) ≠ 1 ∧ (0 < (1 + 1e-7 : ℝ)) ∧
    mappedCoord 2 (1 + 1e-7) 1 = 0 ∧
    (mappedCoord 2 (1 + 1e-7) 2 - mappedCoord 2 (1 + 1e-7) 1) /
      (mappedCoord 2 (1 + 1e-7) 1 - mappedCoord 2 (1 + 1e-7) 0) = 1 ∧
    ¬ |(1 : ℝ) - (1 + 1e-7)| ≤ 1e-10 := by
  have h1 : |(1 + 1e-7 : ℝ) - 1| = 1e-7 := by
    rw [show (1 + 1e-7 : ℝ) - 1 = 1e-7 by norm_num, abs_of_pos (by norm_num)]
  have hcond : ¬ 1e-6 < |(1 + 1e-7 : ℝ) - 1| := by
    rw [h1]
    norm_num
  have hval : ∀ i : ℕ, mappedCoord 2 (1 + 1e-7) i = (i : ℝ) * (2 / 2) - 1 := fun i => by
    simp only [mappedCoord, if_neg hcond]
    norm_num
  refine ⟨by norm_num, by norm_num, ?_, ?_, ?_⟩
  · rw [hval 1]
    norm_num
  · rw [hval 2, hval 1, hval 0]
    norm_num
  · rw [show (1 : ℝ) - (1 + 1e-7) = -1e-7 by norm_num, abs_neg,
      abs_of_pos (by norm_num)]
    norm_num

lemma mappedCoord_zero_at_zero (r : ℝ) : mappedCoord 0 r 0 = -1 := by
  by_cases hc : 1e-6 < |r - 1|
  · simp [mappedCoord, hc, gradedCoord]
  · simp [mappedCoord, hc]

/-- Claim C7, amended: the grading routine performs no validation of the
ratio or the segment count and never raises the spec's `InvalidGrading`
error on any input; invalid inputs are caught, if at all, only by the
routine's internal `cf3_assert` checks — in particular for `n = 0` the
endpoint assertion fails for every ratio, surfacing as a failed-assertion
error rather than `InvalidGrading`. -/
theorem no_invalid_grading :
    (∀ (n : ℕ) (r : ℝ), createMappedCoords n r ≠ Except.error CoordsError.invalidGrading) ∧
    (∀ r : ℝ, createMappedCoords 0 r = Except.error CoordsError.assertionFailed) := by
  constructor
  · intro n r
    rw [createMappedCoords]
    split
    · simp
    · simp
  · intro r
    rw [createMappedCoords, if_neg]
    rintro ⟨-, -, h3⟩
    rw [mappedCoord_zero_at_zero r] at h3
    rw [show (-1 : ℝ) - 1 = -2 by norm_num, abs_neg, abs_of_pos (by norm_num)] at h3
    rw [machineEps] at h3
    norm_num at h3

/-- Counterexample to claim C7 as stated: at `n = 0`, `r = 1` the routine
does not fail with `InvalidGrading`; it trips its endpoint assertion. -/
theorem invalid_grading_counterexample :
    createMappedCoords 0 1 = Except.error CoordsError.assertionFailed ∧
    createMappedCoords 0 1 ≠ Except.error CoordsError.invalidGrading := by
  have hx0 : mappedCoord 0 1 0 = -1 := mappedCoord_zero_at_zero 1
  constructor
  · rw [createMappedCoords, if_neg]
    rintro ⟨-, -, h3⟩
    rw [hx0, show (-1 : ℝ) - 1 = -2 by norm_num, abs_neg,
      abs_of_pos (by norm_num), machineEps] at h3
    norm_num at h3
  · rw [createMappedCoords, if_neg]
    · simp
    · rintro ⟨-, -, h3⟩
      rw [hx0, show (-1 : ℝ) - 1 = -2 by norm_num, abs_neg,
        abs_of_pos (by norm_num), machineEps] at h3
      norm_num at h3

/-- Claim C5: evaluation of the 3D partitioner's grading adjustment at the
failing input.  Cutting a Y-direction block of `n = 3` slices after `s = 2`
slices with Y-edge gradings `(1, 4, 1, 1)`: the claim requires edge 1's new
left grading to be the ratio `(xi_2 - xi_1)/(xi_1 - xi_0) = 2` of its own
mapped-coordinate sequence (`r = 4`, `q = 2`), but the code computes slot 1
from column `grading_idx = 3` (the non-injective map `(0,1,2,3) -> (0,3,2,3)`
reads column 3 twice and never reads column 1), producing `1`. -/
theorem left_grading_bug :
    gradingColumn3 true 1 = 3 ∧ gradingColumn3 true 3 = 3 ∧
    newLeftGrading3 true gradingsYbug 3 2 1 = 1 ∧
    specLeftGrading3 gradingsYbug 3 2 1 = 2 ∧
    newLeftGrading3 true gradingsYbug 3 2 1 ≠ specLeftGrading3 gradingsYbug 3 2 1 := by
  have hg3 : gradingsYbug 3 = 1 := by norm_num [gradingsYbug]
  have hg1 : gradingsYbug 1 = 4 := by norm_num [gradingsYbug]
  have hu : ∀ i : ℕ, mappedCoord 3 1 i = (i : ℝ) * (2 / 3) - 1 := fun i => by
    have hc : ¬ 1e-6 < |(1 : ℝ) - 1| := by norm_num
    simp only [mappedCoord, if_neg hc]
    norm_num
  have hq : (4 : ℝ) ^ ((1 : ℝ) / ((3 - 1 : ℕ) : ℝ)) = 2 := by
    rw [show ((3 - 1 : ℕ) : ℝ) = ((2 : ℕ) : ℝ) by norm_num, one_div,
      show (4 : ℝ) = 2 ^ (2 : ℕ) by norm_num]
    exact Real.pow_rpow_inv_natCast (by norm_num) (by norm_num)
  have hgr : ∀ i : ℕ, mappedCoord 3 4 i = 2 * (1 - (2 : ℝ) ^ i) / (1 - 4 * 2) - 1 :=
    fun i => by
      have hc : 1e-6 < |(4 : ℝ) - 1| := by
        rw [show (4 : ℝ) - 1 = 3 by norm_num, abs_of_pos (by norm_num)]
        norm_num
      simp only [mappedCoord, if_pos hc, gradedCoord, hq]
  have hleft : newLeftGrading3 true gradingsYbug 3 2 1 = 1 := by
    simp only [newLeftGrading3, gradingColumn3]
    norm_num [hg3]
    rw [hu 2, hu 1, hu 0]
    norm_num
  have hspec : specLeftGrading3 gradingsYbug 3 2 1 = 2 := by
    simp only [specLeftGrading3, hg1]
    rw [hgr 2, hgr 1, hgr 0]
    norm_num
  refine ⟨rfl, rfl, hleft, hspec, ?_⟩
  rw [hleft, hspec]
  norm_num

lemma foldl_keeps {σ α : Type} (proj : σ → PartState) (f : σ → α → σ)
    (hf : ∀ s a, (proj (f s a)).outDist = (proj s).outDist ∧
      (proj s).outBlockPoints.length ≤ (proj (f s a)).outBlockPoints.length) :
    ∀ (l : List α) (s : σ),
      (proj (l.foldl f s)).outDist = (proj s).outDist ∧
      (proj s).outBlockPoints.length ≤ (proj (l.foldl f s)).outBlockPoints.length := by
  intro l
  induction l with
  | nil => intro s; exact ⟨rfl, le_refl _⟩
  | cons a l ih =>
    intro s
    obtain ⟨h1, h2⟩ := hf s a
    obtain ⟨h3, h4⟩ := ih (f s a)
    exact ⟨h3.trans h1, h2.trans h4⟩

lemma splitEdgeStep_keeps (B : Blocks2) (dir : ℕ) (st : PartState × List Bool)
    (b i : ℕ) :
    (splitEdgeStep B dir st b i).1.outDist = st.1.outDist ∧
    (splitEdgeStep B dir st b i).1.outBlockPoints = st.1.outBlockPoints := by
  unfold splitEdgeStep
  dsimp only
  split <;> exact ⟨rfl, rfl⟩

lemma splitBlock_keeps (B : Blocks2) (dir pns : ℕ) (st : PartState × List Bool)
    (b : ℕ) :
    (splitBlock B dir pns st b).1.outDist = st.1.outDist ∧
    st.1.outBlockPoints.length ≤ (splitBlock B dir pns st b).1.outBlockPoints.length := by
  unfold splitBlock
  dsimp only
  obtain ⟨e1, e2⟩ := splitEdgeStep_keeps B dir st b 0
  obtain ⟨f1, f2⟩ := splitEdgeStep_keeps B dir (splitEdgeStep B dir st b 0) b 1
  exact ⟨by rw [f1, e1], by rw [f2, e2]⟩

lemma wholeBlock_keeps (B : Blocks2) (dir : ℕ) (s : PartState) (b : ℕ) :
    (wholeBlock B dir s b).outDist = s.outDist ∧
    s.outBlockPoints.length ≤ (wholeBlock B dir s b).outBlockPoints.length := by
  unfold wholeBlock
  dsimp only
  exact ⟨rfl, le_refl _⟩

lemma finishIter_keeps (B : Blocks2) (dir : ℕ) (newBlocks : List (List ℕ)) :
    ∀ (layer : List ℕ) (s : PartState),
      (finishIter B dir layer newBlocks s).outDist = s.outDist ∧
      s.outBlockPoints.length ≤ (finishIter B dir layer newBlocks s).outBlockPoints.length := by
  intro layer
  induction layer with
  | nil => intro s; exact ⟨rfl, le_refl _⟩
  | cons b layer ih =>
    intro s
    unfold finishIter at ih ⊢
    rw [List.foldl_cons]
    obtain ⟨h1, h2⟩ := ih
      { s with
          outBlockPoints := s.outBlockPoints ++ [finishBlock B dir s.endMap newBlocks b]
          outPatchPoints :=
            appendPatches B dir s.outPatchPoints (finishBlock B dir s.endMap newBlocks b) b }
    refine ⟨h1, le_trans ?_ h2⟩
    simp

lemma runWhile_keeps (B : Blocks2) (dir : ℕ) (layer : List ℕ) :
    ∀ (fuel pns : ℕ) (s s' : PartState),
      runWhile B dir layer fuel pns s = some s' →
      s'.outDist = s.outDist ∧ s.outBlockPoints.length ≤ s'.outBlockPoints.length := by
  intro fuel
  induction fuel with
  | zero =>
    intro pns s s' h
    simp [runWhile] at h
  | succ fuel ih =>
    intro pns s s' h
    rw [runWhile] at h
    split at h
    · cases h
      exact ⟨rfl, le_refl _⟩
    · dsimp only at h
      split at h
      · -- split branch
        obtain ⟨h1, h2⟩ := ih _ _ _ h
        have hfold := foldl_keeps Prod.fst (fun st b => splitBlock B dir pns st b)
          (fun st b => splitBlock_keeps B dir pns st b)
          layer (s, List.replicate B.nbPoints false)
        have hfin := finishIter_keeps B dir (layer.map (newBlockStart B dir s.startMap))
          layer
          (layer.foldl (fun st b => splitBlock B dir pns st b)
            (s, List.replicate B.nbPoints false)).1
        refine ⟨?_, ?_⟩
        · rw [h1, hfin.1, hfold.1]
        · exact (hfold.2.trans hfin.2).trans h2
      · -- whole-layer branch
        obtain ⟨h1, h2⟩ := ih _ _ _ h
        have hfold := foldl_keeps id (fun s b => wholeBlock B dir s b)
          (fun s b => wholeBlock_keeps B dir s b)
          layer { s with nextLayer := [] }
        set s1 := layer.foldl (fun s b => wholeBlock B dir s b) { s with nextLayer := [] } with hs1
        have hfin := finishIter_keeps B dir (layer.map (newBlockStart B dir s.startMap))
          layer { s1 with nextLayer := growLayer B dir s1.nextLayer }
        refine ⟨?_, ?_⟩
        · rw [h1, hfin.1]
          exact hfold.1
        · exact (hfold.2.trans hfin.2).trans h2

lemma runPartitions_keeps (B : Blocks2) (dir total psize wf : ℕ) :
    ∀ (p : ℕ) (s s' : PartState),
      runPartitions B dir total psize wf p s = some s' →
      s'.outDist.length = s.outDist.length + p ∧
      (∃ t, s'.outDist = s.outDist ++ t) ∧
      s.outBlockPoints.length ≤ s'.outBlockPoints.length ∧
      ((∀ x ∈ s.outDist, x ≤ s.outBlockPoints.length) ∧ s.outDist.Pairwise (· ≤ ·) →
        (∀ x ∈ s'.outDist, x ≤ s'.outBlockPoints.length) ∧ s'.outDist.Pairwise (· ≤ ·)) := by
  intro p
  induction p with
  | zero =>
    intro s s' h
    rw [runPartitions] at h
    cases h
    exact ⟨rfl, ⟨[], by simp⟩, le_refl _, fun hi => hi⟩
  | succ p ih =>
    intro s s' h
    rw [runPartitions] at h
    dsimp only at h
    split at h
    · simp at h
    · split at h
      · split at h
        · split at h
          · simp at h
          · -- clamped final partition, runWhile returned a state
            rename_i x s3 hw
            obtain ⟨l1, ⟨t, l2⟩, l3, l4⟩ := ih s3 s' h
            obtain ⟨w1, w2⟩ := runWhile_keeps B dir _ _ _ _ _ hw
            refine ⟨?_, ?_, ?_, ?_⟩
            · rw [l1, w1]
              simp only [List.length_append, List.length_singleton]
              omega
            · refine ⟨s.outBlockPoints.length :: t, ?_⟩
              rw [l2, w1]
              simp
            · exact le_trans w2 l3
            · intro hi
              apply l4
              rw [w1]
              constructor
              · intro x hx
                simp only [List.mem_append, List.mem_singleton] at hx
                rcases hx with hx | hx
                · exact le_trans (hi.1 x hx) w2
                · subst hx
                  exact w2
              · rw [List.pairwise_append]
                refine ⟨hi.2, List.pairwise_singleton _ _, ?_⟩
                intro x hx y hy
                rw [List.mem_singleton] at hy
                subst hy
                exact hi.1 x hx
        · simp at h
      · split at h
        · simp at h
        · -- regular partition, runWhile returned a state
          rename_i x s3 hw
          obtain ⟨l1, ⟨t, l2⟩, l3, l4⟩ := ih s3 s' h
          obtain ⟨w1, w2⟩ := runWhile_keeps B dir _ _ _ _ _ hw
          refine ⟨?_, ?_, ?_, ?_⟩
          · rw [l1, w1]
            simp only [List.length_append, List.length_singleton]
            omega
          · refine ⟨s.outBlockPoints.length :: t, ?_⟩
            rw [l2, w1]
            simp
          · exact le_trans w2 l3
          · intro hi
            apply l4
            rw [w1]
            constructor
            · intro x hx
              simp only [List.mem_append, List.mem_singleton] at hx
              rcases hx with hx | hx
              · exact le_trans (hi.1 x hx) w2
              · subst hx
                exact w2
            · rw [List.pairwise_append]
              refine ⟨hi.2, List.pairwise_singleton _ _, ?_⟩
              intro x hx y hy
              rw [List.mem_singleton] at hy
              subst hy
              exact hi.1 x hx

lemma runPartitions_head (B : Blocks2) (dir total psize wf : ℕ) :
    ∀ (p : ℕ) (s s' : PartState),
      runPartitions B dir total psize wf (p + 1) s = some s' →
      ∃ t, s'.outDist = s.outDist ++ s.outBlockPoints.length :: t := by
  intro p s s' h
  rw [runPartitions] at h
  dsimp only at h
  split at h
  · simp at h
  · split at h
    · split at h
      · split at h
        · simp at h
        · rename_i x s3 hw
          obtain ⟨-, ⟨t, l2⟩, -, -⟩ := runPartitions_keeps B dir total psize wf p s3 s' h
          obtain ⟨w1, -⟩ := runWhile_keeps B dir _ _ _ _ _ hw
          refine ⟨t, ?_⟩
          rw [l2, w1]
          simp
      · simp at h
    · split at h
      · simp at h
      · rename_i x s3 hw
        obtain ⟨-, ⟨t, l2⟩, -, -⟩ := runPartitions_keeps B dir total psize wf p s3 s' h
        obtain ⟨w1, -⟩ := runWhile_keeps B dir _ _ _ _ _ hw
        refine ⟨t, ?_⟩
        rw [l2, w1]
        simp

/-- Claim C6, amended: the partitioner's `block_distribution` always has
`nb_parts + 1` entries, starts at 0, is monotone, and ends at the number of
output blocks, so every output block belongs to exactly one contiguous
partition range; but the per-partition element totals are whole multiples of
the layer slice size targeting `ceil(total / nb_parts)` rather than equal to
it: in the concrete run of one 10 x 5 block cut into 4 partitions along X
the totals are `(15, 15, 15, 5)` — summing to the input's 50 elements —
while `ceil(50 / 4) = 13`. -/
theorem partition_distribution_spec :
    (∀ (B : Blocks2) (parts dir wf : ℕ) (out : PartOut), 1 ≤ parts →
      partitionBlocks2 B parts dir wf = some out →
      out.dist.length = parts + 1 ∧
      out.dist.getD 0 0 = 0 ∧
      out.dist.Pairwise (· ≤ ·) ∧
      out.dist.getD parts 0 = out.blockPoints.length) ∧
    ((partitionBlocks2 rect105 4 0 30).map
        (fun o => (o.dist, o.subdivs, sectionElems o 0, sectionElems o 1,
          sectionElems o 2, sectionElems o 3)) =
      some ([0, 1, 2, 3, 4], [[3, 5], [3, 5], [3, 5], [1, 5]], 15, 15, 15, 5) ∧
      totalElems2b rect105 = 50 ∧ 15 + 15 + 15 + 5 = 50) := by
  constructor
  · intro B parts dir wf out hp h
    rw [partitionBlocks2] at h
    rw [Option.map_eq_some'] at h
    obtain ⟨s', hrun, hout⟩ := h
    obtain ⟨l1, ⟨t, l2⟩, -, l4⟩ :=
      runPartitions_keeps B dir (totalElems2b B) (ceilDiv (totalElems2b B) parts) wf
        parts _ s' hrun
    have hinv : (∀ x ∈ s'.outDist, x ≤ s'.outBlockPoints.length) ∧
        s'.outDist.Pairwise (· ≤ ·) := by
      apply l4
      constructor
      · intro x hx
        simp at hx
      · simp
    obtain ⟨p, hps⟩ : ∃ q, parts = q + 1 := ⟨parts - 1, by omega⟩
    rw [hps] at hrun
    obtain ⟨t2, hd⟩ := runPartitions_head B dir (totalElems2b B) _ wf p _ s' hrun
    rw [← hout]
    dsimp only
    refine ⟨?_, ?_, ?_, ?_⟩
    · simp only [List.length_append, List.length_singleton]
      simp at l1
      omega
    · rw [hd]
      simp
    · rw [List.pairwise_append]
      refine ⟨hinv.2, List.pairwise_singleton _ _, ?_⟩
      intro x hx y hy
      rw [List.mem_singleton] at hy
      subst hy
      exact hinv.1 x hx
    · have hlen : s'.outDist.length = parts := by simp at l1; omega
      rw [← hlen, List.getD_eq_getElem?_getD, List.getElem?_concat_length]
      rfl
  · refine ⟨by decide, by decide, by decide⟩

/-- Witness for C6: the concrete 10 x 5 run satisfies the distribution
properties. -/
theorem partition_distribution_spec_witness :
    rect105out.dist.length = 5 ∧ rect105out.dist.getD 0 0 = 0 ∧
    rect105out.dist.Pairwise (· ≤ ·) ∧
    rect105out.dist.getD 4 0 = rect105out.blockPoints.length :=
  partition_distribution_spec.1 rect105 4 0 30 rect105out (by norm_num) (by decide)

/-- Counterexample to claim C6 as stated: cutting one 10 x 5 block (50
elements) into 4 partitions along X gives partition 0 a total of 15
elements, not `ceil(50 / 4) = 13` — each partition takes a whole number of
5-element slice layers. -/
theorem partition_balance_counterexample :
    ceilDiv (totalElems2b rect105) 4 = 13 ∧
    (partitionBlocks2 rect105 4 0 30).map (fun o => sectionElems o 0) = some 15 ∧
    (15 : ℕ) ≠ 13 := by
  refine ⟨by decide, by decide, by decide⟩

end BlockMesh
